import Mathlib

/-! # Log transformer: validation, level normalisation and error metrics

A shallow embedding of `log-transformer.go` (package `main` of the
serverless log processing function): `validateLog`, `normalizeLevel`,
`parseRawLogs`, `validateLogs` and `transformLogs`, with the data types they
work on.

Conventions of the embedding.

* A Go `string` is a Lean `String`.  Every string the functions see comes out of
  `json.Unmarshal` or an HTTP header, so it is a sequence of Unicode scalar
  values, which is what a Lean `String` is.
* A Go slice is a `List`; a Go `map[string]int` is an association list with one
  entry per key (`StrIntMap`); a Go `error` is an `Option String` holding the
  text given to `errors.New`, `none` being `nil`.
* A Go `int` is an `Int`.  The only arithmetic on it is `len` and `++` on a
  counter that is bounded by the length of the slice, so no operation can leave
  the machine range and no reduction modulo `2 ^ 64` is written.
* What the Go standard library decides outside this repository is a field of
  `GoLib`: the Unicode case table above U+007F, the implementation-dependent
  result of an out-of-range `float64` to `int64` conversion, and the
  rendering done by `time.Time.Format`.  `time.Now()` is the argument `now` of
  `transformLogs`.  A theorem that names no library holds for every `GoLib`;
  `linuxAmd64` is the library as it behaves on linux/amd64, for the statements
  about concrete timestamp strings.  In the same way the two calls of
  `json.Unmarshal` are the fields of `JSONLib`.
-/

namespace LogTransformer

/-! ## float64 values -/

/-- A `float64`: a finite value is `mant * 2 ^ exp` (every finite double has this
shape, both zeros being `mant = 0`), the rest are the infinities and NaN. -/
inductive Float64 where
  | finite (mant : Int) (exp : Int)
  | inf (negative : Bool)
  | nan
deriving DecidableEq

/-- The comparison `f > 0` on `float64`: false for both zeros, for negative values,
for negative infinity and for NaN. -/
def Float64.gtZero : Float64 → Bool
  | .finite mant _ => decide (0 < mant)
  | .inf negative => !negative
  | .nan => false

/-- The value of a finite `float64` with its fraction discarded (rounding toward zero);
`none` for the infinities and NaN. -/
def Float64.truncate : Float64 → Option Int
  | .finite mant exp =>
      if 0 ≤ exp then some (mant * 2 ^ exp.toNat) else some (Int.tdiv mant (2 ^ (-exp).toNat))
  | .inf _ => none
  | .nan => none

/-- Reduction of an integer into the range of `int64`, `-2 ^ 63 ≤ n < 2 ^ 63`. -/
def int64Wrap (n : Int) : Int := (n + 2 ^ 63) % 2 ^ 64 - 2 ^ 63

/-! ## What the standard library supplies -/

/-- The parts of the Go standard library and runtime whose tables or results are not
fixed by this repository. -/
structure GoLib where
  /-- `unicode.To(unicode.UpperCase, r)` for a rune above U+007F. -/
  caseTableUpper : Char → Char
  /-- The result of `int64(f)` when `f` has no `int64` value: the language leaves it
  implementation-dependent. -/
  int64OutOfRange : Float64 → Int
  /-- `time.Unix(sec, 0).UTC().Format(time.RFC3339)`: the RFC3339 UTC rendering of the
  instant `sec` whole seconds after the epoch. -/
  formatUnix : Int → String

/-- The conversion `int64(f)` of Go: the truncated value when `int64` can hold it, and an
implementation-dependent `int64` otherwise. -/
def toInt64 (lib : GoLib) (f : Float64) : Int :=
  match f.truncate with
  | some t => if -(2 ^ 63) ≤ t ∧ t < 2 ^ 63 then t else int64Wrap (lib.int64OutOfRange f)
  | none => int64Wrap (lib.int64OutOfRange f)

/-! ## strings.TrimSpace and strings.ToUpper -/

/-- `unicode.IsSpace`: in Latin-1 the runes tab, LF, VT, FF, CR, space, U+0085 and
U+00A0; above it the runes with the Unicode property White_Space. -/
def isSpace (r : Char) : Bool :=
  let n := r.toNat
  if n ≤ 0xFF then
    decide (n = 0x09 ∨ n = 0x0A ∨ n = 0x0B ∨ n = 0x0C ∨ n = 0x0D ∨ n = 0x20 ∨ n = 0x85 ∨ n = 0xA0)
  else
    decide (n = 0x1680 ∨ (0x2000 ≤ n ∧ n ≤ 0x200A) ∨ n = 0x2028 ∨ n = 0x2029 ∨ n = 0x202F
      ∨ n = 0x205F ∨ n = 0x3000)

/-- The runes of a string with the leading and the trailing `isSpace` runes removed. -/
def trimRunes (rs : List Char) : List Char :=
  (rs.dropWhile isSpace).rdropWhile isSpace

/-- `strings.TrimSpace`: the string without its leading and trailing white space. -/
def TrimSpace (s : String) : String := ⟨trimRunes s.data⟩

/-- `unicode.ToUpper`: an ASCII lower-case letter moves to its upper-case letter, any
other ASCII rune stays, a rune above U+007F goes through the case table. -/
def unicodeToUpper (lib : GoLib) (r : Char) : Char :=
  if r.toNat ≤ 0x7F then
    (if 'a' ≤ r ∧ r ≤ 'z' then Char.ofNat (r.toNat - 32) else r)
  else lib.caseTableUpper r

/-- `strings.ToUpper`: every rune mapped by `unicode.ToUpper`. -/
def ToUpper (lib : GoLib) (s : String) : String := ⟨s.data.map (unicodeToUpper lib)⟩

/-! ## Request and response types -/

/-- `RawLog`: one raw record of the request. -/
structure RawLog where
  Level : String := ""
  Message : String := ""
  Timestamp : Float64 := Float64.finite 0 0
  Service : String := ""
  ErrorType : String := ""
  RequestID : String := ""
deriving DecidableEq

/-- `TransformedLog`: one normalised record of the response. -/
structure TransformedLog where
  Level : String
  Message : String
  Service : String
  ErrorType : String
  TimestampISO : String
  ReceivedAt : String
  RequestID : String
  Pipeline : String
deriving DecidableEq

/-- A `map[string]int`: the entries in the order the keys were first written, one entry
per key. -/
abbrev StrIntMap := List (String × Int)

/-- The read `m[k]`: the value stored under `k`, the zero value `0` when `k` is absent. -/
def StrIntMap.get : StrIntMap → String → Int
  | [], _ => 0
  | (k', v) :: m, k => if k' = k then v else StrIntMap.get m k

/-- Whether `k` is a key of the map (the `ok` of `_, ok := m[k]`). -/
def StrIntMap.has : StrIntMap → String → Bool
  | [], _ => false
  | (k', _) :: m, k => if k' = k then true else StrIntMap.has m k

/-- The write `m[k] = v`: replaces the value of an existing key, adds the key otherwise. -/
def StrIntMap.set : StrIntMap → String → Int → StrIntMap
  | [], k, v => [(k, v)]
  | (k', v') :: m, k, v => if k' = k then (k', v) :: m else (k', v') :: StrIntMap.set m k v

/-- The statement `m[k]++`, that is `m[k] = m[k] + 1`. -/
def StrIntMap.incr (m : StrIntMap) (k : String) : StrIntMap := m.set k (m.get k + 1)

/-- The keys of the map. -/
def StrIntMap.keys (m : StrIntMap) : List String := m.map Prod.fst

/-- The sum of all the values of the map. -/
def StrIntMap.sumValues (m : StrIntMap) : Int := (m.map Prod.snd).sum

/-- `Metrics`: the per-request metrics of the response. -/
structure Metrics where
  TotalLogs : Int
  ErrorsByService : StrIntMap
  ErrorsByType : StrIntMap
deriving DecidableEq

/-! ## The functions of log-transformer.go -/

/-- `validateLog`: the error of the first required field that is empty after trimming,
`none` when the record has both. -/
def validateLog (rawLog : RawLog) : Option String :=
  if TrimSpace rawLog.Message = "" then
    some "message is required and cannot be empty"
  else if TrimSpace rawLog.Service = "" then
    some "service is required and cannot be empty"
  else none

/-- `normalizeLevel`: the canonical level of a level string. -/
def normalizeLevel (lib : GoLib) (level : String) : String :=
  let l := ToUpper lib (TrimSpace level)
  if l = "ERROR" ∨ l = "ERR" ∨ l = "E" ∨ l = "FATAL" ∨ l = "CRITICAL" then "ERROR"
  else if l = "WARN" ∨ l = "WARNING" ∨ l = "W" then "WARN"
  else if l = "INFO" ∨ l = "I" ∨ l = "INFORMATION" then "INFO"
  else if l = "DEBUG" ∨ l = "D" ∨ l = "TRACE" then "DEBUG"
  else "INFO"

/-- The loop of `validateLogs` from position `i` on: index and error of the first record
that fails `validateLog`, and `(-1, nil)` when the range is exhausted. -/
def validateLogsFrom (i : Int) : List RawLog → Int × Option String
  | [] => (-1, none)
  | rl :: rest =>
      match validateLog rl with
      | some err => (i, some err)
      | none => validateLogsFrom (i + 1) rest

/-- `validateLogs`: validates each record in order. -/
def validateLogs (rawLogs : List RawLog) : Int × Option String :=
  validateLogsFrom 0 rawLogs

/-- One iteration of the loop of `transformLogs` on the record `raw`, from the slice
and the metrics built so far. -/
def transformStep (lib : GoLib) (now requestID : String)
    (acc : List TransformedLog × Metrics) (raw : RawLog) : List TransformedLog × Metrics :=
  let level := normalizeLevel lib raw.Level
  let timestamp :=
    if raw.Timestamp.gtZero then lib.formatUnix (toInt64 lib raw.Timestamp) else now
  let logRequestID := if raw.RequestID = "" then requestID else raw.RequestID
  let tLog : TransformedLog :=
    { Level := level
      Message := TrimSpace raw.Message
      Service := raw.Service
      ErrorType := raw.ErrorType
      TimestampISO := timestamp
      ReceivedAt := now
      RequestID := logRequestID
      Pipeline := "fission-log-processor" }
  let transformed := acc.1 ++ [tLog]
  if level = "ERROR" then
    let service := if raw.Service = "" then "unknown" else raw.Service
    let errorType := if raw.ErrorType = "" then "generic" else raw.ErrorType
    (transformed,
      { acc.2 with
        ErrorsByService := acc.2.ErrorsByService.incr service
        ErrorsByType := acc.2.ErrorsByType.incr errorType })
  else
    (transformed, acc.2)

/-- `transformLogs`: converts the raw records and computes the metrics of the request;
`now` is the string `time.Now().UTC().Format(time.RFC3339)` taken once on entry. -/
def transformLogs (lib : GoLib) (now : String) (rawLogs : List RawLog) (requestID : String) :
    List TransformedLog × Metrics :=
  rawLogs.foldl (transformStep lib now requestID)
    ([], { TotalLogs := rawLogs.length, ErrorsByService := [], ErrorsByType := [] })

/-- The value `tLog` that one iteration of the loop of `transformLogs` appends for `raw`. -/
def transformRecord (lib : GoLib) (now requestID : String) (raw : RawLog) : TransformedLog :=
  { Level := normalizeLevel lib raw.Level
    Message := TrimSpace raw.Message
    Service := raw.Service
    ErrorType := raw.ErrorType
    TimestampISO :=
      if raw.Timestamp.gtZero then lib.formatUnix (toInt64 lib raw.Timestamp) else now
    ReceivedAt := now
    RequestID := if raw.RequestID = "" then requestID else raw.RequestID
    Pipeline := "fission-log-processor" }

/-- `generateRequestID`: the text "req-" followed by `hex`, the hexadecimal encoding of the
eight random bytes. -/
def generateRequestID (hex : String) : String := "req-" ++ hex

/-- `getRequestID`: the first non-empty one of the headers X-Request-ID, X-Correlation-ID and
X-Trace-ID (`header` is `r.Header.Get`, the empty string for an absent header), a generated
identifier when all three are empty. -/
def getRequestID (header : String → String) (hex : String) : String :=
  if header "X-Request-ID" ≠ "" then header "X-Request-ID"
  else if header "X-Correlation-ID" ≠ "" then header "X-Correlation-ID"
  else if header "X-Trace-ID" ≠ "" then header "X-Trace-ID"
  else generateRequestID hex

/-! ## Decoding the request body -/

/-- The bytes of a request body that is the text `s` (its UTF-8 encoding). -/
def payload (s : String) : List UInt8 := s.data.flatMap String.utf8EncodeChar

/-- The two calls of `json.Unmarshal` in `parseRawLogs`, which the package encoding/json of
the standard library decides: the decoded value when the call returns a nil error, the text of
the error otherwise. -/
structure JSONLib where
  /-- `json.Unmarshal(body, &rawLogs)` for `var rawLogs []RawLog`. -/
  unmarshalLogs : List UInt8 → Except String (List RawLog)
  /-- `json.Unmarshal(body, &single)` for `var single RawLog`. -/
  unmarshalLog : List UInt8 → Except String RawLog

/-- `parseRawLogs`: the body decoded as a slice of records, or else as one record wrapped
into a slice, or else the error "invalid JSON format" with a nil slice. -/
def parseRawLogs (json : JSONLib) (body : List UInt8) : List RawLog × Option String :=
  match json.unmarshalLogs body with
  | .ok rawLogs => (rawLogs, none)
  | .error _ =>
      match json.unmarshalLog body with
      | .ok single => ([single], none)
      | .error _ => ([], some "invalid JSON format")

/-- A decoder for the examples.  Like encoding/json it decodes the body `[]` to the empty
slice and the body of one empty object to the record of zero values, and it rejects the body
`not valid json`; unlike encoding/json it rejects every other body as well. -/
def exampleJSON : JSONLib :=
  { unmarshalLogs := fun body =>
      if body = [0x5B, 0x5D] then .ok [] else .error "body is not an array of records"
    unmarshalLog := fun body =>
      if body = [0x7B, 0x7D] then .ok {} else .error "body is not a record" }

/-! ## The RFC3339 rendering of an instant -/

/-- The decimal digits of `n`, most significant first, padded with zeros to at least
`width` digits. -/
def decimalDigits (width n : Nat) : List Char :=
  List.replicate (width - (Nat.toDigits 10 n).length) '0' ++ Nat.toDigits 10 n

/-- The year, month and day, in the proleptic Gregorian calendar, of the day that is `days`
days after 1970-01-01. -/
def civilFromDays (days : Int) : Int × Int × Int :=
  let z := days + 719468
  let era := z / 146097
  let doe := z % 146097
  let yoe := (doe - doe / 1460 + doe / 36524 - doe / 146096) / 365
  let doy := doe - (365 * yoe + yoe / 4 - yoe / 100)
  let mp := (5 * doy + 2) / 153
  let d := doy - (153 * mp + 2) / 5 + 1
  let m := if mp < 10 then mp + 3 else mp - 9
  let y := yoe + era * 400 + (if m ≤ 2 then 1 else 0)
  (y, m, d)

/-- The RFC3339 UTC rendering `YYYY-MM-DDTHH:MM:SSZ` of the instant `sec` whole seconds after
the epoch 1970-01-01T00:00:00Z; a year outside 0..9999 is written with all its digits and its
sign, as the layout of `time.Format` writes it. -/
def rfc3339UTC (sec : Int) : String :=
  let date := civilFromDays (sec / 86400)
  let rem := (sec % 86400).toNat
  let year :=
    if date.1 < 0 then '-' :: decimalDigits 4 (-date.1).toNat else decimalDigits 4 date.1.toNat
  ⟨year ++ '-' :: decimalDigits 2 date.2.1.toNat ++ '-' :: decimalDigits 2 date.2.2.toNat
    ++ 'T' :: decimalDigits 2 (rem / 3600) ++ ':' :: decimalDigits 2 (rem % 3600 / 60)
    ++ ':' :: decimalDigits 2 (rem % 60) ++ ['Z']⟩

/-- The constant `unixToInternal + internalToAbsolute` of package time: the seconds from the
zero of its absolute count, the start of the year -292277022399, to the epoch. -/
def unixToAbsolute : Int := 9223372028715321600

/-- `time.Unix(sec, 0).UTC().Format(time.RFC3339)` as package time computes it: the instant
is turned into an unsigned 64-bit count of seconds from the absolute zero, so it is kept
modulo `2 ^ 64`, and that count is rendered. -/
def goFormatUnix (sec : Int) : String :=
  rfc3339UTC ((sec + unixToAbsolute) % 2 ^ 64 - unixToAbsolute)

/-- The library on linux/amd64: a `float64` that `int64` cannot hold converts to `-2 ^ 63`
(the result of the instruction CVTTSD2SQ), instants are rendered by `goFormatUnix`; the case
table is left as an argument. -/
def linuxAmd64 (caseTable : Char → Char) : GoLib :=
  { caseTableUpper := caseTable
    int64OutOfRange := fun _ => -(2 ^ 63)
    formatUnix := goFormatUnix }

/-! ## The vocabulary of the specification -/

/-- The fourteen spellings of the level table with the canonical level of each. -/
def levelTable : List (String × String) :=
  [("ERROR", "ERROR"), ("ERR", "ERROR"), ("E", "ERROR"), ("FATAL", "ERROR"),
   ("CRITICAL", "ERROR"),
   ("WARN", "WARN"), ("WARNING", "WARN"), ("W", "WARN"),
   ("INFO", "INFO"), ("I", "INFO"), ("INFORMATION", "INFO"),
   ("DEBUG", "DEBUG"), ("D", "DEBUG"), ("TRACE", "DEBUG")]

/-- The four canonical levels. -/
def canonicalLevels : List String := ["ERROR", "WARN", "INFO", "DEBUG"]

/-- The rune `b` is the letter `a` in either case. -/
def SameLetter (a b : Char) : Prop := b = a ∨ b = a.toLower

instance (a b : Char) : Decidable (SameLetter a b) :=
  inferInstanceAs (Decidable (b = a ∨ b = a.toLower))

/-- The runes `v` spell the word `w` with the case of any of its letters changed. -/
def CaseVariant (w v : List Char) : Prop := List.Forall₂ SameLetter w v

/-- The number of records of a batch whose normalised level is ERROR. -/
def errorCount (lib : GoLib) (rawLogs : List RawLog) : Nat :=
  rawLogs.countP (fun r => decide (normalizeLevel lib r.Level = "ERROR"))

/-- The number of records of a batch whose normalised level is ERROR and whose service,
replaced by "unknown" when it is the empty string, is `k`. -/
def serviceErrorCount (lib : GoLib) (rawLogs : List RawLog) (k : String) : Nat :=
  rawLogs.countP (fun r => decide (normalizeLevel lib r.Level = "ERROR" ∧
    (if r.Service = "" then "unknown" else r.Service) = k))

/-- The number of records of a batch whose normalised level is ERROR and whose error type,
replaced by "generic" when it is the empty string, is `k`. -/
def typeErrorCount (lib : GoLib) (rawLogs : List RawLog) (k : String) : Nat :=
  rawLogs.countP (fun r => decide (normalizeLevel lib r.Level = "ERROR" ∧
    (if r.ErrorType = "" then "generic" else r.ErrorType) = k))

/-- A record passes both rules of the validator: its message and its service are
non-empty after trimming. -/
def PassesRules (r : RawLog) : Prop := TrimSpace r.Message ≠ "" ∧ TrimSpace r.Service ≠ ""

instance (r : RawLog) : Decidable (PassesRules r) :=
  inferInstanceAs (Decidable (TrimSpace r.Message ≠ "" ∧ TrimSpace r.Service ≠ ""))

/-! ## White space and letter case -/

theorem dropWhile_append_of_all {p : Char → Bool} (pre rest : List Char)
    (h : ∀ c ∈ pre, p c = true) : (pre ++ rest).dropWhile p = rest.dropWhile p := by
  induction pre with
  | nil => rfl
  | cons a t ih =>
    have ha : p a = true := h a (List.mem_cons_self a t)
    simp only [List.cons_append, List.dropWhile_cons, ha, if_true]
    exact ih (fun c hc => h c (List.mem_cons_of_mem a hc))

theorem dropWhile_of_head {p : Char → Bool} (a : Char) (t : List Char) (h : p a = false) :
    (a :: t).dropWhile p = a :: t := by
  simp [List.dropWhile_cons, h]

theorem trimRunes_sandwich (pre v post : List Char)
    (hpre : ∀ c ∈ pre, isSpace c = true) (hpost : ∀ c ∈ post, isSpace c = true)
    (hv : ∀ c ∈ v, isSpace c = false) : trimRunes (pre ++ v ++ post) = v := by
  unfold trimRunes
  rw [List.append_assoc, dropWhile_append_of_all pre _ hpre]
  rcases List.eq_nil_or_concat v with rfl | ⟨u, z, rfl⟩
  · have h1 : ([] ++ post).dropWhile isSpace = [] := by
      simpa using dropWhile_append_of_all post [] hpost
    rw [h1]; rfl
  · simp only [List.concat_eq_append] at hv ⊢
    have hz : isSpace z = false := hv z (by simp)
    have h2 : (u ++ [z] ++ post).dropWhile isSpace = u ++ [z] ++ post := by
      cases u with
      | nil => exact dropWhile_of_head z post hz
      | cons a t => exact dropWhile_of_head a _ (hv a (by simp))
    rw [h2, List.rdropWhile, List.reverse_append, dropWhile_append_of_all post.reverse _
      (fun c hc => hpost c (List.mem_reverse.mp hc))]
    rw [List.reverse_append, List.reverse_singleton, List.singleton_append,
      dropWhile_of_head z _ hz]
    simp

theorem sameLetter_upper (lib : GoLib) (a b : Char) (h : a.isUpper = true)
    (hb : SameLetter a b) : unicodeToUpper lib b = a ∧ isSpace b = false := by
  have h1 : a = Char.ofNat a.toNat := (Char.ofNat_toNat a).symm
  have h2 : 65 ≤ a.toNat ∧ a.toNat ≤ 90 := by
    simp only [Char.isUpper, Bool.and_eq_true, decide_eq_true_eq] at h
    exact ⟨by simpa using h.1, by simpa using h.2⟩
  generalize a.toNat = n at h1 h2
  obtain ⟨h3, h4⟩ := h2
  subst h1
  interval_cases n <;> rcases hb with rfl | rfl <;> exact ⟨rfl, rfl⟩

theorem caseVariant_upper (lib : GoLib) (w v : List Char) (hv : CaseVariant w v)
    (hw : ∀ a ∈ w, a.isUpper = true) :
    v.map (unicodeToUpper lib) = w ∧ ∀ c ∈ v, isSpace c = false := by
  induction hv with
  | nil => simp
  | @cons a b w' v' hab _ ih =>
    obtain ⟨h1, h2⟩ := sameLetter_upper lib a b (hw a (List.mem_cons_self a w')) hab
    obtain ⟨h3, h4⟩ := ih (fun c hc => hw c (List.mem_cons_of_mem a hc))
    refine ⟨by simp [h1, h3], ?_⟩
    intro c hc
    rcases List.mem_cons.mp hc with rfl | hc
    · exact h2
    · exact h4 c hc

theorem levelTable_upper (w canon : String) (hw : (w, canon) ∈ levelTable) :
    ∀ a ∈ w.data, a.isUpper = true := by
  have h : ∀ p ∈ levelTable, ∀ a ∈ p.1.data, a.isUpper = true := by decide
  exact h (w, canon) hw

theorem normalizeLevel_of_upper (lib : GoLib) (s w canon : String)
    (hw : (w, canon) ∈ levelTable) (hs : ToUpper lib (TrimSpace s) = w) :
    normalizeLevel lib s = canon := by
  unfold normalizeLevel
  rw [hs]
  unfold levelTable at hw
  fin_cases hw <;> rfl

/-- C3: for every string the result of normalizeLevel is exactly one of the four canonical
levels, and it is INFO whenever the trimmed, upper-cased string is none of the fourteen
spellings of the table. -/
theorem normalizeLevel_canonical (lib : GoLib) (s : String) :
    (∃! v, v ∈ canonicalLevels ∧ normalizeLevel lib s = v) ∧
    (ToUpper lib (TrimSpace s) ∉ levelTable.map Prod.fst → normalizeLevel lib s = "INFO") := by
  refine ⟨⟨normalizeLevel lib s, ⟨?_, rfl⟩, fun y hy => hy.2.symm⟩, ?_⟩
  · unfold normalizeLevel
    simp only [canonicalLevels]
    split_ifs <;> simp
  · intro h
    simp only [levelTable, List.map_cons, List.map_nil, List.mem_cons, List.mem_singleton,
      List.not_mem_nil, or_false, not_or] at h
    unfold normalizeLevel
    simp [h]

/-- C4: a table spelling written in any mix of letter case, with any white space before and
after it, is normalised to the canonical level of its group. -/
theorem normalizeLevel_table (lib : GoLib) (w canon : String) (pre v post : List Char)
    (hw : (w, canon) ∈ levelTable) (hv : CaseVariant w.data v)
    (hpre : ∀ c ∈ pre, isSpace c = true) (hpost : ∀ c ∈ post, isSpace c = true) :
    normalizeLevel lib ⟨pre ++ v ++ post⟩ = canon := by
  obtain ⟨h1, h2⟩ := caseVariant_upper lib w.data v hv (levelTable_upper w canon hw)
  apply normalizeLevel_of_upper lib _ w canon hw
  simp only [ToUpper, TrimSpace, trimRunes_sandwich pre v post hpre hpost h2, h1]

/-- The spelling " Critical " of the claim: mixed case between two spaces. -/
theorem normalizeLevel_table_witness :
    CaseVariant "CRITICAL".data "Critical".data ∧
    ∀ lib : GoLib, normalizeLevel lib " Critical " = "ERROR" :=
  ⟨by unfold CaseVariant; repeat (first | exact List.Forall₂.nil | apply List.Forall₂.cons (by decide)),
   fun lib => normalizeLevel_table lib "CRITICAL" "ERROR" [' '] "Critical".data [' ']
    (by decide) (by unfold CaseVariant; repeat (first | exact List.Forall₂.nil | apply List.Forall₂.cons (by decide))) (by decide) (by decide)⟩

/-! ## Maps -/

theorem StrIntMap.get_set (m : StrIntMap) (k k' : String) (v : Int) :
    StrIntMap.get (StrIntMap.set m k v) k' = if k' = k then v else StrIntMap.get m k' := by
  induction m with
  | nil =>
    by_cases h : k' = k
    · simp [StrIntMap.set, StrIntMap.get, h]
    · have h' : ¬ k = k' := fun e => h e.symm
      simp [StrIntMap.set, StrIntMap.get, h, h']
  | cons p m ih =>
    obtain ⟨a, b⟩ := p
    by_cases hak : a = k
    · subst hak
      by_cases h : k' = a
      · simp [StrIntMap.set, StrIntMap.get, h]
      · have h' : ¬ a = k' := fun e => h e.symm
        simp [StrIntMap.set, StrIntMap.get, h, h']
    · by_cases hak' : a = k'
      · subst hak'
        simp [StrIntMap.set, StrIntMap.get, hak]
      · simp [StrIntMap.set, StrIntMap.get, hak, hak', ih]

theorem StrIntMap.has_set (m : StrIntMap) (k k' : String) (v : Int) :
    StrIntMap.has (StrIntMap.set m k v) k' = (decide (k' = k) || StrIntMap.has m k') := by
  induction m with
  | nil =>
    by_cases h : k' = k
    · simp [StrIntMap.set, StrIntMap.has, h]
    · have h' : ¬ k = k' := fun e => h e.symm
      simp [StrIntMap.set, StrIntMap.has, h, h']
  | cons p m ih =>
    obtain ⟨a, b⟩ := p
    by_cases hak : a = k
    · subst hak
      by_cases h : k' = a
      · simp [StrIntMap.set, StrIntMap.has, h]
      · have h' : ¬ a = k' := fun e => h e.symm
        simp [StrIntMap.set, StrIntMap.has, h, h']
    · by_cases hak' : a = k'
      · subst hak'
        simp [StrIntMap.set, StrIntMap.has, hak]
      · simp [StrIntMap.set, StrIntMap.has, hak, hak', ih]

theorem StrIntMap.sumValues_set (m : StrIntMap) (k : String) (v : Int) :
    StrIntMap.sumValues (StrIntMap.set m k v) = StrIntMap.sumValues m - StrIntMap.get m k + v := by
  induction m with
  | nil => simp [StrIntMap.set, StrIntMap.get, StrIntMap.sumValues]
  | cons p m ih =>
    obtain ⟨a, b⟩ := p
    by_cases hak : a = k
    · simp [StrIntMap.set, StrIntMap.get, StrIntMap.sumValues, hak]
      omega
    · simp only [StrIntMap.sumValues] at ih
      simp [StrIntMap.set, StrIntMap.get, StrIntMap.sumValues, hak, ih]
      omega

theorem StrIntMap.has_iff_mem_keys (m : StrIntMap) (k : String) :
    StrIntMap.has m k = true ↔ k ∈ StrIntMap.keys m := by
  induction m with
  | nil => simp [StrIntMap.has, StrIntMap.keys]
  | cons p m ih =>
    obtain ⟨a, b⟩ := p
    simp only [StrIntMap.keys] at ih
    by_cases hak : a = k
    · simp [StrIntMap.has, StrIntMap.keys, hak]
    · have h' : ¬ k = a := fun e => hak e.symm
      simp [StrIntMap.has, StrIntMap.keys, hak, h', ih]

theorem StrIntMap.keys_set_nodup (m : StrIntMap) (k : String) (v : Int)
    (h : (StrIntMap.keys m).Nodup) : (StrIntMap.keys (StrIntMap.set m k v)).Nodup := by
  induction m with
  | nil => simp [StrIntMap.set, StrIntMap.keys]
  | cons p m ih =>
    obtain ⟨a, b⟩ := p
    have h1 : a ∉ StrIntMap.keys m ∧ (StrIntMap.keys m).Nodup := by
      simpa [StrIntMap.keys] using h
    by_cases hak : a = k
    · simpa [StrIntMap.set, StrIntMap.keys, hak] using h
    · have h2 : a ∉ StrIntMap.keys (StrIntMap.set m k v) := by
        rw [← StrIntMap.has_iff_mem_keys, StrIntMap.has_set]
        simp [hak, StrIntMap.has_iff_mem_keys, h1.1]
      have h3 := ih h1.2
      simp only [StrIntMap.keys] at h2 h3
      simp [StrIntMap.set, StrIntMap.keys, hak, h2, h3]

theorem StrIntMap.get_incr (m : StrIntMap) (k k' : String) :
    StrIntMap.get (StrIntMap.incr m k) k' = StrIntMap.get m k' + (if k = k' then 1 else 0) := by
  rw [StrIntMap.incr, StrIntMap.get_set]
  by_cases h : k' = k
  · subst h; simp
  · have h' : ¬ k = k' := fun e => h e.symm
    simp [h, h']

theorem StrIntMap.has_incr (m : StrIntMap) (k k' : String) :
    StrIntMap.has (StrIntMap.incr m k) k' = (decide (k = k') || StrIntMap.has m k') := by
  rw [StrIntMap.incr, StrIntMap.has_set]
  by_cases h : k' = k
  · subst h; simp
  · have h' : ¬ k = k' := fun e => h e.symm
    simp [h, h']

theorem StrIntMap.sumValues_incr (m : StrIntMap) (k : String) :
    StrIntMap.sumValues (StrIntMap.incr m k) = StrIntMap.sumValues m + 1 := by
  rw [StrIntMap.incr, StrIntMap.sumValues_set]; omega

/-! ## The loop of transformLogs -/

theorem transformStep_fst (lib : GoLib) (now c : String) (acc : List TransformedLog × Metrics)
    (raw : RawLog) :
    (transformStep lib now c acc raw).1 = acc.1 ++ [transformRecord lib now c raw] := by
  unfold transformStep transformRecord
  by_cases h : normalizeLevel lib raw.Level = "ERROR" <;> simp [h]

theorem transformStep_total (lib : GoLib) (now c : String) (acc : List TransformedLog × Metrics)
    (raw : RawLog) :
    (transformStep lib now c acc raw).2.TotalLogs = acc.2.TotalLogs := by
  unfold transformStep
  by_cases h : normalizeLevel lib raw.Level = "ERROR" <;> simp [h]

theorem transformStep_service (lib : GoLib) (now c : String)
    (acc : List TransformedLog × Metrics) (raw : RawLog) :
    (transformStep lib now c acc raw).2.ErrorsByService =
      if normalizeLevel lib raw.Level = "ERROR" then
        acc.2.ErrorsByService.incr (if raw.Service = "" then "unknown" else raw.Service)
      else acc.2.ErrorsByService := by
  unfold transformStep
  by_cases h : normalizeLevel lib raw.Level = "ERROR" <;> simp [h]

theorem transformStep_type (lib : GoLib) (now c : String)
    (acc : List TransformedLog × Metrics) (raw : RawLog) :
    (transformStep lib now c acc raw).2.ErrorsByType =
      if normalizeLevel lib raw.Level = "ERROR" then
        acc.2.ErrorsByType.incr (if raw.ErrorType = "" then "generic" else raw.ErrorType)
      else acc.2.ErrorsByType := by
  unfold transformStep
  by_cases h : normalizeLevel lib raw.Level = "ERROR" <;> simp [h]

theorem foldl_transformStep_fst (lib : GoLib) (now c : String) (rs : List RawLog)
    (acc : List TransformedLog × Metrics) :
    (rs.foldl (transformStep lib now c) acc).1 = acc.1 ++ rs.map (transformRecord lib now c) := by
  induction rs generalizing acc with
  | nil => simp
  | cons r rs ih => simp [List.foldl_cons, ih, transformStep_fst]

theorem foldl_transformStep_total (lib : GoLib) (now c : String) (rs : List RawLog)
    (acc : List TransformedLog × Metrics) :
    (rs.foldl (transformStep lib now c) acc).2.TotalLogs = acc.2.TotalLogs := by
  induction rs generalizing acc with
  | nil => simp
  | cons r rs ih => simp [List.foldl_cons, ih, transformStep_total]

theorem foldl_transformStep_service (lib : GoLib) (now c : String) (rs : List RawLog)
    (acc : List TransformedLog × Metrics) (k : String) :
    (rs.foldl (transformStep lib now c) acc).2.ErrorsByService.get k =
        acc.2.ErrorsByService.get k + serviceErrorCount lib rs k ∧
    (rs.foldl (transformStep lib now c) acc).2.ErrorsByService.has k =
        (acc.2.ErrorsByService.has k || decide (1 ≤ serviceErrorCount lib rs k)) := by
  induction rs generalizing acc with
  | nil => simp [serviceErrorCount]
  | cons r rs ih =>
    obtain ⟨h1, h2⟩ := ih (transformStep lib now c acc r)
    rw [List.foldl_cons, h1, h2, transformStep_service]
    simp only [serviceErrorCount] at *
    by_cases he : normalizeLevel lib r.Level = "ERROR"
    · by_cases hk : (if r.Service = "" then "unknown" else r.Service) = k
      · simp [List.countP_cons, he, hk, StrIntMap.get_incr, StrIntMap.has_incr]
        omega
      · simp [List.countP_cons, he, hk, StrIntMap.get_incr, StrIntMap.has_incr]
    · simp [List.countP_cons, he]

theorem foldl_transformStep_type (lib : GoLib) (now c : String) (rs : List RawLog)
    (acc : List TransformedLog × Metrics) (k : String) :
    (rs.foldl (transformStep lib now c) acc).2.ErrorsByType.get k =
        acc.2.ErrorsByType.get k + typeErrorCount lib rs k ∧
    (rs.foldl (transformStep lib now c) acc).2.ErrorsByType.has k =
        (acc.2.ErrorsByType.has k || decide (1 ≤ typeErrorCount lib rs k)) := by
  induction rs generalizing acc with
  | nil => simp [typeErrorCount]
  | cons r rs ih =>
    obtain ⟨h1, h2⟩ := ih (transformStep lib now c acc r)
    rw [List.foldl_cons, h1, h2, transformStep_type]
    simp only [typeErrorCount] at *
    by_cases he : normalizeLevel lib r.Level = "ERROR"
    · by_cases hk : (if r.ErrorType = "" then "generic" else r.ErrorType) = k
      · simp [List.countP_cons, he, hk, StrIntMap.get_incr, StrIntMap.has_incr]
        omega
      · simp [List.countP_cons, he, hk, StrIntMap.get_incr, StrIntMap.has_incr]
    · simp [List.countP_cons, he]

theorem foldl_transformStep_sums (lib : GoLib) (now c : String) (rs : List RawLog)
    (acc : List TransformedLog × Metrics) :
    (rs.foldl (transformStep lib now c) acc).2.ErrorsByService.sumValues =
        acc.2.ErrorsByService.sumValues + errorCount lib rs ∧
    (rs.foldl (transformStep lib now c) acc).2.ErrorsByType.sumValues =
        acc.2.ErrorsByType.sumValues + errorCount lib rs := by
  induction rs generalizing acc with
  | nil => simp [errorCount]
  | cons r rs ih =>
    obtain ⟨h1, h2⟩ := ih (transformStep lib now c acc r)
    rw [List.foldl_cons, h1, h2, transformStep_service, transformStep_type]
    simp only [errorCount] at *
    by_cases he : normalizeLevel lib r.Level = "ERROR"
    · simp [List.countP_cons, he, StrIntMap.sumValues_incr]
      constructor <;> omega
    · simp [List.countP_cons, he]

theorem foldl_transformStep_nodup (lib : GoLib) (now c : String) (rs : List RawLog)
    (acc : List TransformedLog × Metrics)
    (h1 : acc.2.ErrorsByService.keys.Nodup) (h2 : acc.2.ErrorsByType.keys.Nodup) :
    (rs.foldl (transformStep lib now c) acc).2.ErrorsByService.keys.Nodup ∧
    (rs.foldl (transformStep lib now c) acc).2.ErrorsByType.keys.Nodup := by
  induction rs generalizing acc with
  | nil => exact ⟨h1, h2⟩
  | cons r rs ih =>
    rw [List.foldl_cons]
    apply ih
    · rw [transformStep_service]
      by_cases he : normalizeLevel lib r.Level = "ERROR"
      · rw [if_pos he]
        exact StrIntMap.keys_set_nodup _ _ _ h1
      · rw [if_neg he]
        exact h1
    · rw [transformStep_type]
      by_cases he : normalizeLevel lib r.Level = "ERROR"
      · rw [if_pos he]
        exact StrIntMap.keys_set_nodup _ _ _ h2
      · rw [if_neg he]
        exact h2

/-! ## The results of transformLogs -/

theorem transformLogs_fst (lib : GoLib) (now : String) (rs : List RawLog) (c : String) :
    (transformLogs lib now rs c).1 = rs.map (transformRecord lib now c) := by
  simp [transformLogs, foldl_transformStep_fst]

/-- C1: in the metrics returned by transformLogs the values of ErrorsByService and the values
of ErrorsByType both add up to the number of records whose normalised level is ERROR; this
holds for every batch, the batches that pass validateLogs among them. -/
theorem metrics_consistency (lib : GoLib) (now : String) (rawLogs : List RawLog)
    (requestID : String) :
    (transformLogs lib now rawLogs requestID).2.ErrorsByService.sumValues =
        (transformLogs lib now rawLogs requestID).2.ErrorsByType.sumValues ∧
    (transformLogs lib now rawLogs requestID).2.ErrorsByType.sumValues =
        ((rawLogs.filter (fun r => decide (normalizeLevel lib r.Level = "ERROR"))).length : Int) := by
  obtain ⟨h1, h2⟩ := foldl_transformStep_sums lib now requestID rawLogs
    ([], { TotalLogs := rawLogs.length, ErrorsByService := [], ErrorsByType := [] })
  simp only [transformLogs]
  rw [h1, h2]
  simp [StrIntMap.sumValues, errorCount, List.countP_eq_length_filter]

/-- C2: for every key, ErrorsByService holds the number of ERROR records whose service (or
"unknown" for the empty service) is that key, ErrorsByType the number of ERROR records whose
error type (or "generic" for the empty one) is that key, and a key is present in a map exactly
when its count is at least 1. -/
theorem metrics_counts (lib : GoLib) (now : String) (rawLogs : List RawLog)
    (requestID : String) (k : String) :
    (transformLogs lib now rawLogs requestID).2.ErrorsByService.get k =
        ((rawLogs.filter (fun r => decide (normalizeLevel lib r.Level = "ERROR" ∧
          (if r.Service = "" then "unknown" else r.Service) = k))).length : Int) ∧
    (transformLogs lib now rawLogs requestID).2.ErrorsByType.get k =
        ((rawLogs.filter (fun r => decide (normalizeLevel lib r.Level = "ERROR" ∧
          (if r.ErrorType = "" then "generic" else r.ErrorType) = k))).length : Int) ∧
    ((transformLogs lib now rawLogs requestID).2.ErrorsByService.has k = true ↔
        1 ≤ (rawLogs.filter (fun r => decide (normalizeLevel lib r.Level = "ERROR" ∧
          (if r.Service = "" then "unknown" else r.Service) = k))).length) ∧
    ((transformLogs lib now rawLogs requestID).2.ErrorsByType.has k = true ↔
        1 ≤ (rawLogs.filter (fun r => decide (normalizeLevel lib r.Level = "ERROR" ∧
          (if r.ErrorType = "" then "generic" else r.ErrorType) = k))).length) := by
  obtain ⟨h1, h2⟩ := foldl_transformStep_service lib now requestID rawLogs
    ([], { TotalLogs := rawLogs.length, ErrorsByService := [], ErrorsByType := [] }) k
  obtain ⟨h3, h4⟩ := foldl_transformStep_type lib now requestID rawLogs
    ([], { TotalLogs := rawLogs.length, ErrorsByService := [], ErrorsByType := [] }) k
  simp only [transformLogs]
  rw [h1, h2, h3, h4]
  simp [StrIntMap.get, StrIntMap.has, serviceErrorCount, typeErrorCount,
    List.countP_eq_length_filter]

/-- No key occurs twice in a map of the metrics, so `sumValues` counts each key once. -/
theorem transformLogs_keys_nodup (lib : GoLib) (now : String) (rs : List RawLog) (c : String) :
    (transformLogs lib now rs c).2.ErrorsByService.keys.Nodup ∧
    (transformLogs lib now rs c).2.ErrorsByType.keys.Nodup :=
  foldl_transformStep_nodup lib now c rs _ (by simp [StrIntMap.keys]) (by simp [StrIntMap.keys])

theorem transformLogs_getElem? (lib : GoLib) (now : String) (rs : List RawLog) (c : String)
    (i : Nat) :
    (transformLogs lib now rs c).1[i]? = (rs[i]?).map (transformRecord lib now c) := by
  rw [transformLogs_fst, List.getElem?_map]

/-- Scenario 6 of the specification: levels WARNING and critical, services svc-a and svc-b. -/
theorem transformLogs_two_levels (lib : GoLib) (now c : String) :
    transformLogs lib now
      [{ Level := "WARNING", Message := "a", Service := "svc-a" },
       { Level := "critical", Message := "b", Service := "svc-b" }] c =
    ([{ Level := "WARN", Message := "a", Service := "svc-a", ErrorType := "",
        TimestampISO := now, ReceivedAt := now, RequestID := c,
        Pipeline := "fission-log-processor" },
      { Level := "ERROR", Message := "b", Service := "svc-b", ErrorType := "",
        TimestampISO := now, ReceivedAt := now, RequestID := c,
        Pipeline := "fission-log-processor" }],
     { TotalLogs := 2, ErrorsByService := [("svc-b", 1)], ErrorsByType := [("generic", 1)] }) := by
  rfl

/-- C5: the records returned by transformLogs are as many as the input records and the record
at each position is derived from the input record at that position: Service and ErrorType
are copied verbatim, Level is normalizeLevel of the input level and Message is the trimmed
input message.  It holds for every batch, the valid ones among them. -/
theorem transformLogs_positional (lib : GoLib) (now : String) (rawLogs : List RawLog)
    (requestID : String) :
    (transformLogs lib now rawLogs requestID).1.length = rawLogs.length ∧
    ∀ (i : Nat) (raw : RawLog), rawLogs[i]? = some raw →
      ∃ t, (transformLogs lib now rawLogs requestID).1[i]? = some t ∧
        t.Service = raw.Service ∧ t.ErrorType = raw.ErrorType ∧
        t.Level = normalizeLevel lib raw.Level ∧ t.Message = TrimSpace raw.Message := by
  refine ⟨by simp [transformLogs_fst], ?_⟩
  intro i raw h
  refine ⟨transformRecord lib now requestID raw, ?_, rfl, rfl, rfl, rfl⟩
  rw [transformLogs_getElem?, h]; rfl

/-- One record with white space and mixed case in every field. -/
theorem transformLogs_positional_witness :
    ([{ Level := " Err ", Message := "  disk full ", Service := " Svc-A", ErrorType := "IO " }] :
      List RawLog)[0]? =
      some { Level := " Err ", Message := "  disk full ", Service := " Svc-A", ErrorType := "IO " } ∧
    ∀ lib : GoLib, ∃ t,
      (transformLogs lib "now"
        [{ Level := " Err ", Message := "  disk full ", Service := " Svc-A", ErrorType := "IO " }]
        "req-1").1[0]? = some t ∧
      t.Service = " Svc-A" ∧ t.ErrorType = "IO " ∧ t.Level = "ERROR" ∧
      t.Message = "disk full" := by
  refine ⟨rfl, fun lib => ?_⟩
  obtain ⟨t, h1, h2, h3, h4, h5⟩ := (transformLogs_positional lib "now"
    [{ Level := " Err ", Message := "  disk full ", Service := " Svc-A", ErrorType := "IO " }]
    "req-1").2 0 _ rfl
  exact ⟨t, h1, h2, h3, h4.trans rfl, h5.trans (by decide)⟩

/-- C8: an output record carries the correlation identifier of the batch when its input
record has an empty request_id, and the request_id of its input record otherwise. -/
theorem transformLogs_requestID (lib : GoLib) (now : String) (rawLogs : List RawLog)
    (requestID : String) (i : Nat) (raw : RawLog) (h : rawLogs[i]? = some raw) :
    ∃ t, (transformLogs lib now rawLogs requestID).1[i]? = some t ∧
      (raw.RequestID = "" → t.RequestID = requestID) ∧
      (raw.RequestID ≠ "" → t.RequestID = raw.RequestID) := by
  refine ⟨transformRecord lib now requestID raw, ?_, ?_, ?_⟩
  · rw [transformLogs_getElem?, h]; rfl
  · intro h0; simp [transformRecord, h0]
  · intro h0; simp [transformRecord, h0]

/-- Scenario 1 of the specification: no request_id, correlation identifier req-123. -/
theorem transformLogs_requestID_witness :
    ([{ Level := "err", Message := "x", Service := "svc-a" }] : List RawLog)[0]? =
      some { Level := "err", Message := "x", Service := "svc-a" } ∧
    ∀ (lib : GoLib) (now : String), ∃ t,
      (transformLogs lib now [{ Level := "err", Message := "x", Service := "svc-a" }]
        "req-123").1[0]? = some t ∧ t.RequestID = "req-123" := by
  refine ⟨rfl, fun lib now => ?_⟩
  obtain ⟨t, h1, h2, -⟩ := transformLogs_requestID lib now
    [{ Level := "err", Message := "x", Service := "svc-a" }] "req-123" 0 _ rfl
  exact ⟨t, h1, h2 rfl⟩

/-! ## validateLogs -/

theorem validateLog_eq_none (r : RawLog) : validateLog r = none ↔ PassesRules r := by
  unfold validateLog PassesRules
  by_cases h1 : TrimSpace r.Message = "" <;> by_cases h2 : TrimSpace r.Service = "" <;>
    simp [h1, h2]

theorem validateLog_eq_some (r : RawLog) (e : String) (h : validateLog r = some e) :
    ¬ PassesRules r ∧
    (TrimSpace r.Message = "" → e = "message is required and cannot be empty") ∧
    (TrimSpace r.Message ≠ "" → e = "service is required and cannot be empty") := by
  unfold validateLog at h
  unfold PassesRules
  by_cases h1 : TrimSpace r.Message = "" <;> by_cases h2 : TrimSpace r.Service = "" <;>
    simp [h1, h2] at h ⊢ <;> exact h.symm

theorem validateLogsFrom_some (rs : List RawLog) (i j : Int) (e : String)
    (h : validateLogsFrom i rs = (j, some e)) :
    ∃ (n : Nat) (r : RawLog), j = i + n ∧ rs[n]? = some r ∧ validateLog r = some e ∧
      ∀ (m : Nat) (r' : RawLog), m < n → rs[m]? = some r' → validateLog r' = none := by
  induction rs generalizing i with
  | nil => simp [validateLogsFrom] at h
  | cons a rs ih =>
    unfold validateLogsFrom at h
    cases hv : validateLog a with
    | some err =>
      rw [hv] at h
      simp only [Prod.mk.injEq, Option.some.injEq] at h
      refine ⟨0, a, by simp [h.1], by simp, by rw [hv, h.2], ?_⟩
      intro m r' hm
      omega
    | none =>
      rw [hv] at h
      obtain ⟨n, r, h1, h2, h3, h4⟩ := ih (i + 1) h
      refine ⟨n + 1, r, by push_cast; omega, by simpa using h2, h3, ?_⟩
      intro m r' hm hr'
      cases m with
      | zero =>
        simp only [List.getElem?_cons_zero, Option.some.injEq] at hr'
        rw [← hr']; exact hv
      | succ m =>
        simp only [List.getElem?_cons_succ] at hr'
        exact h4 m r' (by omega) hr'

theorem validateLogsFrom_none (rs : List RawLog) (i j : Int)
    (h : validateLogsFrom i rs = (j, none)) :
    j = -1 ∧ ∀ r ∈ rs, validateLog r = none := by
  induction rs generalizing i with
  | nil =>
    simp only [validateLogsFrom, Prod.mk.injEq] at h
    exact ⟨h.1.symm, by simp⟩
  | cons a rs ih =>
    unfold validateLogsFrom at h
    cases hv : validateLog a with
    | some err => rw [hv] at h; simp at h
    | none =>
      rw [hv] at h
      obtain ⟨h1, h2⟩ := ih (i + 1) h
      refine ⟨h1, ?_⟩
      intro r hr
      rcases List.mem_cons.mp hr with rfl | hr
      · exact hv
      · exact h2 r hr

theorem validateLogsFrom_all (rs : List RawLog) (i : Int)
    (h : ∀ r ∈ rs, validateLog r = none) : validateLogsFrom i rs = (-1, none) := by
  induction rs generalizing i with
  | nil => rfl
  | cons a rs ih =>
    unfold validateLogsFrom
    rw [h a (List.mem_cons_self a rs)]
    exact ih (i + 1) (fun r hr => h r (List.mem_cons_of_mem a hr))

/-- C6: a violation reported by validateLogs is at the smallest position whose record has a
message or a service that is empty after trimming, every earlier record passing both rules;
its reason is the message reason when the trimmed message of that record is empty (whatever
its service) and the service reason otherwise. -/
theorem validateLogs_first_violation (rawLogs : List RawLog) (i : Int) (e : String)
    (h : validateLogs rawLogs = (i, some e)) :
    ∃ (n : Nat) (r : RawLog), i = n ∧ rawLogs[n]? = some r ∧ ¬ PassesRules r ∧
      (∀ (m : Nat) (r' : RawLog), m < n → rawLogs[m]? = some r' → PassesRules r') ∧
      (TrimSpace r.Message = "" → e = "message is required and cannot be empty") ∧
      (TrimSpace r.Message ≠ "" → e = "service is required and cannot be empty") := by
  obtain ⟨n, r, h1, h2, h3, h4⟩ := validateLogsFrom_some rawLogs 0 i e h
  obtain ⟨h5, h6, h7⟩ := validateLog_eq_some r e h3
  refine ⟨n, r, by omega, h2, h5, ?_, h6, h7⟩
  intro m r' hm hr'
  exact (validateLog_eq_none r').mp (h4 m r' hm hr')

/-- Scenario 3 of the specification: the single record with an empty message. -/
theorem validateLogs_first_violation_witness :
    validateLogs [{ Message := "", Service := "svc-a" }] =
      (0, some "message is required and cannot be empty") ∧
    ∃ (n : Nat) (r : RawLog), (0 : Int) = n ∧
      ([{ Message := "", Service := "svc-a" }] : List RawLog)[n]? = some r ∧ ¬ PassesRules r ∧
      (∀ (m : Nat) (r' : RawLog), m < n →
        ([{ Message := "", Service := "svc-a" }] : List RawLog)[m]? = some r' → PassesRules r') ∧
      (TrimSpace r.Message = "" →
        "message is required and cannot be empty" = "message is required and cannot be empty") ∧
      (TrimSpace r.Message ≠ "" →
        "message is required and cannot be empty" = "service is required and cannot be empty") :=
  ⟨by decide, validateLogs_first_violation [{ Message := "", Service := "svc-a" }] 0
    "message is required and cannot be empty" (by decide)⟩

/-- C7: validateLogs returns the sentinel, index -1 with no error, exactly when every record
has a message and a service that are non-empty after trimming (so for the empty sequence);
any other result is a violation whose index lies in 0..len-1. -/
theorem validateLogs_sentinel (rawLogs : List RawLog) :
    (validateLogs rawLogs = (-1, none) ↔ ∀ r ∈ rawLogs, PassesRules r) ∧
    validateLogs [] = (-1, none) ∧
    (validateLogs rawLogs = (-1, none) ∨
      ∃ (i : Int) (e : String), validateLogs rawLogs = (i, some e) ∧ 0 ≤ i ∧ i < rawLogs.length) := by
  refine ⟨⟨?_, ?_⟩, rfl, ?_⟩
  · intro h r hr
    exact (validateLog_eq_none r).mp ((validateLogsFrom_none rawLogs 0 (-1) h).2 r hr)
  · intro h
    exact validateLogsFrom_all rawLogs 0 (fun r hr => (validateLog_eq_none r).mpr (h r hr))
  · rcases hres : validateLogs rawLogs with ⟨i, _ | e⟩
    · left
      rw [(validateLogsFrom_none rawLogs 0 i hres).1]
    · right
      obtain ⟨n, r, h1, h2, -, -⟩ := validateLogsFrom_some rawLogs 0 i e hres
      have h3 : n < rawLogs.length := by
        by_contra hc
        rw [List.getElem?_eq_none (by omega)] at h2
        exact Option.noConfusion h2
      exact ⟨i, e, rfl, by omega, by omega⟩

/-! ## Request identifiers and timestamps -/

theorem getRequestID_ne_empty (header : String → String) (hex : String) :
    getRequestID header hex ≠ "" := by
  unfold getRequestID
  split_ifs with h1 h2 h3
  · exact h1
  · exact h2
  · exact h3
  · intro h
    have h4 := congrArg String.length h
    simp [generateRequestID, String.length_append] at h4
    exact absurd h4.1 (by decide)

/-- The function itself has no guard: called with the empty identifier, which the handler
never passes, it leaves the RequestID of a record without request_id empty. -/
theorem transformLogs_empty_identifier :
    validateLogs [{ Level := "info", Message := "x", Service := "svc-a" }] = (-1, none) ∧
    ∀ (lib : GoLib) (now : String),
      (transformLogs lib now [{ Level := "info", Message := "x", Service := "svc-a" }] "").1.map
        (fun t => t.RequestID) = [""] :=
  ⟨by decide, fun _ _ => rfl⟩

/-- When the correlation identifier given to transformLogs is non-empty, the RequestID of
every output record is a non-empty string. -/
theorem transformLogs_requestID_nonempty (lib : GoLib) (now : String) (rawLogs : List RawLog)
    (requestID : String) (hc : requestID ≠ "") :
    ∀ t ∈ (transformLogs lib now rawLogs requestID).1, t.RequestID ≠ "" := by
  intro t ht
  rw [transformLogs_fst, List.mem_map] at ht
  obtain ⟨raw, -, rfl⟩ := ht
  by_cases h : raw.RequestID = "" <;> simp [transformRecord, h, hc]

/-- A batch with and without a request_id of its own, under the identifier req-123. -/
theorem transformLogs_requestID_nonempty_example :
    "req-123" ≠ "" ∧
    ∀ (lib : GoLib) (now : String),
      ∀ t ∈ (transformLogs lib now
        [{ Level := "err", Message := "x", Service := "svc-a" },
         { Level := "info", Message := "y", Service := "svc-b", RequestID := "own-7" }]
        "req-123").1, t.RequestID ≠ "" :=
  ⟨by decide, fun lib now => transformLogs_requestID_nonempty lib now _ "req-123" (by decide)⟩

/-- C9: the correlation identifier that is passed to transformLogs is the result of
getRequestID (the only call, in the handler), which is never the empty string; so for every
batch, the valid ones among them, the RequestID of every output record is a non-empty
string. -/
theorem handler_requestID_nonempty (lib : GoLib) (now : String) (rawLogs : List RawLog)
    (header : String → String) (hex : String) :
    getRequestID header hex ≠ "" ∧
    ∀ t ∈ (transformLogs lib now rawLogs (getRequestID header hex)).1, t.RequestID ≠ "" := by
  have hc := getRequestID_ne_empty header hex
  refine ⟨hc, ?_⟩
  intro t ht
  rw [transformLogs_fst, List.mem_map] at ht
  obtain ⟨raw, -, rfl⟩ := ht
  by_cases h : raw.RequestID = "" <;> simp [transformRecord, h, hc]

/-- A request without any of the three headers: the generated identifier reaches the record
that has no request_id, the other record keeps its own. -/
theorem handler_requestID_nonempty_witness :
    getRequestID (fun _ => "") "00112233445566ff" = "req-00112233445566ff" ∧
    ∀ (lib : GoLib) (now : String),
      (transformLogs lib now
        [{ Level := "err", Message := "x", Service := "svc-a" },
         { Level := "info", Message := "y", Service := "svc-b", RequestID := "own-7" }]
        (getRequestID (fun _ => "") "00112233445566ff")).1.map (fun t => t.RequestID) =
        ["req-00112233445566ff", "own-7"] ∧
      ∀ t ∈ (transformLogs lib now
        [{ Level := "err", Message := "x", Service := "svc-a" },
         { Level := "info", Message := "y", Service := "svc-b", RequestID := "own-7" }]
        (getRequestID (fun _ => "") "00112233445566ff")).1, t.RequestID ≠ "" :=
  ⟨by decide, fun lib now => ⟨rfl, (handler_requestID_nonempty lib now _ _ _).2⟩⟩

theorem gtZero_truncate_nonneg (f : Float64) (sec : Int) (h : f.gtZero = true)
    (hs : f.truncate = some sec) : 0 ≤ sec := by
  cases f with
  | finite mant exp =>
    simp only [Float64.gtZero, decide_eq_true_eq] at h
    simp only [Float64.truncate] at hs
    split_ifs at hs with he
    · simp only [Option.some.injEq] at hs
      rw [← hs]; positivity
    · simp only [Option.some.injEq] at hs
      rw [← hs]
      exact Int.tdiv_nonneg (by omega) (by positivity)
  | inf negative => simp [Float64.truncate] at hs
  | nan => simp [Float64.truncate] at hs

theorem int64Wrap_lt (n : Int) : int64Wrap n < 2 ^ 63 := by
  unfold int64Wrap
  have := Int.emod_lt_of_pos (n + 2 ^ 63) (show (0 : Int) < 2 ^ 64 by norm_num)
  omega

theorem goFormatUnix_eq (sec : Int) (h0 : -unixToAbsolute ≤ sec)
    (h1 : sec < 2 ^ 64 - unixToAbsolute) : goFormatUnix sec = rfc3339UTC sec := by
  unfold goFormatUnix
  rw [Int.emod_eq_of_lt (by omega) (by omega)]
  congr 1
  omega

/-- C10, as stated, fails: the timestamp 2 ^ 63 + 2048 (the JSON number 9223372036854777856,
the next float64 after 2 ^ 63) is strictly greater than zero and its truncation to whole
seconds is itself, whose RFC3339 UTC rendering ends in 16:04:16Z; on linux/amd64 the
conversion to int64 gives -2 ^ 63 and TimestampISO is the string ending in 15:30:08Z. -/
theorem timestamp_rendering_counterexample :
    Float64.gtZero (Float64.finite (2 ^ 52 + 1) 11) = true ∧
    Float64.truncate (Float64.finite (2 ^ 52 + 1) 11) = some (2 ^ 63 + 2048) ∧
    rfc3339UTC (2 ^ 63 + 2048) = "292277026596-12-04T16:04:16Z" ∧
    goFormatUnix (2 ^ 63 + 2048) = "292277026596-12-04T16:04:16Z" ∧
    ∀ (caseTable : Char → Char) (now : String),
      (transformLogs (linuxAmd64 caseTable) now
        [{ Message := "x", Service := "svc-a", Timestamp := Float64.finite (2 ^ 52 + 1) 11 }]
        "req-1").1.map (fun t => t.TimestampISO) = ["292277026596-12-04T15:30:08Z"] := by
  refine ⟨rfl, rfl, rfl, rfl, fun caseTable now => ?_⟩
  have h1 : toInt64 (linuxAmd64 caseTable) (Float64.finite (2 ^ 52 + 1) 11) = -(2 ^ 63) := rfl
  have h2 : goFormatUnix (-(2 ^ 63)) = "292277026596-12-04T15:30:08Z" := rfl
  have h3 : Float64.gtZero (Float64.finite (2 ^ 52 + 1) 11) = true := rfl
  rw [transformLogs_fst]
  simp only [List.map_cons, List.map_nil, transformRecord, h3, if_true, h1]
  exact congrArg (fun x => [x]) h2

/-- C10, amended: a record whose timestamp is not strictly greater than zero (absent, zero
or negative) gets the string now as TimestampISO, the same string as its ReceivedAt; a record
whose timestamp is strictly greater than zero gets a TimestampISO that does not depend on
now, and when the timestamp truncated to whole seconds is below 2 ^ 63 it is the RFC3339 UTC
rendering of that number of seconds since the epoch: the string the library renders for it,
which with the rendering of package time is the string `rfc3339UTC` of it. -/
theorem transformLogs_timestamp (lib : GoLib) (now : String) (rawLogs : List RawLog)
    (requestID : String) (i : Nat) (raw : RawLog) (h : rawLogs[i]? = some raw) :
    ∃ t, (transformLogs lib now rawLogs requestID).1[i]? = some t ∧ t.ReceivedAt = now ∧
      (raw.Timestamp.gtZero = false → t.TimestampISO = now ∧ t.TimestampISO = t.ReceivedAt) ∧
      (raw.Timestamp.gtZero = true →
        (∀ sec : Int, raw.Timestamp.truncate = some sec → sec < 2 ^ 63 →
          t.TimestampISO = lib.formatUnix sec ∧
          (lib.formatUnix = goFormatUnix → t.TimestampISO = rfc3339UTC sec)) ∧
        ∀ now' : String, ((transformLogs lib now' rawLogs requestID).1[i]?).map
          (fun t' => t'.TimestampISO) = some t.TimestampISO) := by
  refine ⟨transformRecord lib now requestID raw, ?_, rfl, ?_, ?_⟩
  · rw [transformLogs_getElem?, h]; rfl
  · intro h0; simp [transformRecord, h0]
  · intro h0
    refine ⟨?_, ?_⟩
    · intro sec hs hlt
      have h1 := gtZero_truncate_nonneg raw.Timestamp sec h0 hs
      have h2 : toInt64 lib raw.Timestamp = sec := by
        unfold toInt64
        rw [hs]
        have h3 : -(2 ^ 63) ≤ sec ∧ sec < 2 ^ 63 := ⟨by omega, hlt⟩
        simp only []
        rw [if_pos h3]
      have h4 : (transformRecord lib now requestID raw).TimestampISO = lib.formatUnix sec := by
        simp [transformRecord, h0, h2]
      refine ⟨h4, fun hf => ?_⟩
      rw [h4, hf]
      exact goFormatUnix_eq sec (by unfold unixToAbsolute; omega)
        (by unfold unixToAbsolute; omega)
    · intro now'
      rw [transformLogs_getElem?, h]
      simp [transformRecord, h0]

/-- The timestamp 1700000000.5 is rendered as the instant 1700000000, on linux/amd64 as the
string 2023-11-14T22:13:20Z. -/
theorem transformLogs_timestamp_witness :
    ([{ Message := "hi", Service := "svc-b", Timestamp := Float64.finite 3400000001 (-1) }] :
      List RawLog)[0]? =
      some { Message := "hi", Service := "svc-b", Timestamp := Float64.finite 3400000001 (-1) } ∧
    Float64.gtZero (Float64.finite 3400000001 (-1)) = true ∧
    Float64.truncate (Float64.finite 3400000001 (-1)) = some 1700000000 ∧
    rfc3339UTC 1700000000 = "2023-11-14T22:13:20Z" ∧
    (∀ (lib : GoLib) (now : String), ∃ t,
      (transformLogs lib now
        [{ Message := "hi", Service := "svc-b", Timestamp := Float64.finite 3400000001 (-1) }]
        "req-1").1[0]? = some t ∧
      t.ReceivedAt = now ∧ t.TimestampISO = lib.formatUnix 1700000000) ∧
    ∀ (caseTable : Char → Char) (now : String), ∃ t,
      (transformLogs (linuxAmd64 caseTable) now
        [{ Message := "hi", Service := "svc-b", Timestamp := Float64.finite 3400000001 (-1) }]
        "req-1").1[0]? = some t ∧
      t.TimestampISO = "2023-11-14T22:13:20Z" := by
  have hr : rfc3339UTC 1700000000 = "2023-11-14T22:13:20Z" := rfl
  refine ⟨rfl, rfl, rfl, hr, fun lib now => ?_, fun caseTable now => ?_⟩
  · obtain ⟨t, h1, h2, -, h3⟩ := transformLogs_timestamp lib now
      [{ Message := "hi", Service := "svc-b", Timestamp := Float64.finite 3400000001 (-1) }]
      "req-1" 0 _ rfl
    exact ⟨t, h1, h2, ((h3 rfl).1 1700000000 rfl (by norm_num)).1⟩
  · obtain ⟨t, h1, -, -, h3⟩ := transformLogs_timestamp (linuxAmd64 caseTable) now
      [{ Message := "hi", Service := "svc-b", Timestamp := Float64.finite 3400000001 (-1) }]
      "req-1" 0 _ rfl
    exact ⟨t, h1, (((h3 rfl).1 1700000000 rfl (by norm_num)).2 rfl).trans hr⟩

/-- On linux/amd64 the timestamp 2 ^ 63 itself comes out as the rendering of 2 ^ 63 seconds:
the conversion gives -2 ^ 63, which package time renders modulo 2 ^ 64.  The language does
not fix that conversion, so no statement for every platform reaches this timestamp. -/
theorem transformLogs_timestamp_two_pow_63_amd64 (caseTable : Char → Char) (now : String) :
    rfc3339UTC (2 ^ 63) = "292277026596-12-04T15:30:08Z" ∧
    (transformLogs (linuxAmd64 caseTable) now
      [{ Message := "x", Service := "svc-a", Timestamp := Float64.finite 1 63 }]
      "req-1").1.map (fun t => t.TimestampISO) = ["292277026596-12-04T15:30:08Z"] := by
  refine ⟨rfl, ?_⟩
  have h1 : toInt64 (linuxAmd64 caseTable) (Float64.finite 1 63) = -(2 ^ 63) := rfl
  have h2 : goFormatUnix (-(2 ^ 63)) = "292277026596-12-04T15:30:08Z" := rfl
  have h3 : Float64.gtZero (Float64.finite 1 63) = true := rfl
  rw [transformLogs_fst]
  simp only [List.map_cons, List.map_nil, transformRecord, h3, if_true, h1]
  exact congrArg (fun x => [x]) h2

/-- Scenario 5 of the specification: the timestamp 0 falls back to now. -/
theorem transformLogs_zero_timestamp (lib : GoLib) (now : String) :
    (transformLogs lib now
      [{ Level := "warn", Message := "hi", Service := "svc-b", Timestamp := Float64.finite 0 0 }]
      "req-1").1.map (fun t => (t.TimestampISO, t.ReceivedAt)) = [(now, now)] := by
  rfl

/-! ## Trimming twice -/

theorem trimRunes_head (l : List Char) (c : Char) (h : (trimRunes l).head? = some c) :
    isSpace c = false := by
  unfold trimRunes at h
  have hne : (l.dropWhile isSpace).rdropWhile isSpace ≠ [] := by
    intro h0; rw [h0] at h; exact Option.noConfusion h
  have hpre := List.rdropWhile_prefix isSpace (l.dropWhile isSpace)
  have hne' : l.dropWhile isSpace ≠ [] := by
    intro h0; rw [h0] at hne; exact hne rfl
  have h1 := hpre.head hne
  rw [List.head?_eq_head hne, Option.some.injEq] at h
  rw [← h, h1]
  exact List.head_dropWhile_not isSpace l hne'

theorem trimRunes_getLast (l : List Char) (c : Char) (h : (trimRunes l).getLast? = some c) :
    isSpace c = false := by
  unfold trimRunes at h
  have hne : (l.dropWhile isSpace).rdropWhile isSpace ≠ [] := by
    intro h0; rw [h0] at h; exact Option.noConfusion h
  rw [List.getLast?_eq_getLast _ hne, Option.some.injEq] at h
  have h1 := List.rdropWhile_last_not isSpace (l.dropWhile isSpace) hne
  rw [h] at h1
  simpa using h1

theorem trimRunes_idem (l : List Char) : trimRunes (trimRunes l) = trimRunes l := by
  have h1 : (trimRunes l).dropWhile isSpace = trimRunes l := by
    cases ht : trimRunes l with
    | nil => rfl
    | cons a s =>
      have ha : isSpace a = false := trimRunes_head l a (by rw [ht]; rfl)
      exact dropWhile_of_head a s ha
  have h2 : (trimRunes l).rdropWhile isSpace = trimRunes l := by
    unfold trimRunes
    exact List.rdropWhile_idempotent isSpace _
  show ((trimRunes l).dropWhile isSpace).rdropWhile isSpace = trimRunes l
  rw [h1, h2]

theorem TrimSpace_idem (m : String) : TrimSpace (TrimSpace m) = TrimSpace m := by
  unfold TrimSpace
  simp only [trimRunes_idem]

/-- C12: trimming a trimmed string changes nothing; so for a record that passes validateLog
the Message returned by transformLogs is non-empty, neither starts nor ends with white space,
still satisfies the message rule of the validator, and a record carrying that Message is
transformed to the same Message again. -/
theorem message_stable :
    (∀ m : String, TrimSpace (TrimSpace m) = TrimSpace m) ∧
    ∀ (lib : GoLib) (now : String) (rawLogs : List RawLog) (requestID : String) (i : Nat)
      (raw : RawLog), rawLogs[i]? = some raw → validateLog raw = none →
      ∃ t, (transformLogs lib now rawLogs requestID).1[i]? = some t ∧
        t.Message ≠ "" ∧
        (∀ c, t.Message.data.head? = some c → isSpace c = false) ∧
        (∀ c, t.Message.data.getLast? = some c → isSpace c = false) ∧
        TrimSpace t.Message ≠ "" ∧
        ∀ (lib' : GoLib) (now' requestID' : String) (raw' : RawLog),
          raw'.Message = t.Message →
          (transformLogs lib' now' [raw'] requestID').1.map (fun t' => t'.Message) =
            [t.Message] := by
  refine ⟨TrimSpace_idem, ?_⟩
  intro lib now rawLogs requestID i raw h hv
  have hp := (validateLog_eq_none raw).mp hv
  refine ⟨transformRecord lib now requestID raw, ?_, hp.1, ?_, ?_, ?_, ?_⟩
  · rw [transformLogs_getElem?, h]; rfl
  · exact trimRunes_head raw.Message.data
  · exact trimRunes_getLast raw.Message.data
  · show TrimSpace (TrimSpace raw.Message) ≠ ""
    rw [TrimSpace_idem]; exact hp.1
  · intro lib' now' requestID' raw' hm
    rw [transformLogs_fst]
    show [TrimSpace raw'.Message] = [TrimSpace raw.Message]
    rw [hm]
    show [TrimSpace (TrimSpace raw.Message)] = [TrimSpace raw.Message]
    rw [TrimSpace_idem]

/-- The message "  disk full " of a valid record comes out as "disk full", and stays so. -/
theorem message_stable_witness :
    ([{ Message := "  disk full ", Service := "svc-a" }] : List RawLog)[0]? =
      some { Message := "  disk full ", Service := "svc-a" } ∧
    validateLog { Message := "  disk full ", Service := "svc-a" } = none ∧
    ∀ (lib : GoLib) (now : String), ∃ t,
      (transformLogs lib now [{ Message := "  disk full ", Service := "svc-a" }] "req-1").1[0]? =
        some t ∧
      t.Message = "disk full" ∧ TrimSpace t.Message ≠ "" ∧
      (transformLogs lib now [{ Message := t.Message, Service := "svc-a" }] "req-1").1.map
        (fun t' => t'.Message) = [t.Message] := by
  refine ⟨rfl, by decide, fun lib now => ?_⟩
  obtain ⟨t, h1, -, -, -, h5, h6⟩ := message_stable.2 lib now
    [{ Message := "  disk full ", Service := "svc-a" }] "req-1" 0 _ rfl (by decide)
  refine ⟨t, h1, ?_, h5, h6 lib now "req-1" _ rfl⟩
  have h7 : (transformLogs lib now [{ Message := "  disk full ", Service := "svc-a" }]
      "req-1").1[0]? = some (transformRecord lib now "req-1"
        { Message := "  disk full ", Service := "svc-a" }) := rfl
  rw [h1, Option.some.injEq] at h7
  rw [h7]
  show TrimSpace "  disk full " = "disk full"
  decide

/-! ## Order and concatenation -/

theorem transformLogs_total (lib : GoLib) (now : String) (rs : List RawLog) (c : String) :
    (transformLogs lib now rs c).2.TotalLogs = rs.length := by
  simp [transformLogs, foldl_transformStep_total]

theorem transformLogs_service (lib : GoLib) (now : String) (rs : List RawLog) (c k : String) :
    (transformLogs lib now rs c).2.ErrorsByService.get k = serviceErrorCount lib rs k ∧
    (transformLogs lib now rs c).2.ErrorsByService.has k =
      decide (1 ≤ serviceErrorCount lib rs k) := by
  obtain ⟨h1, h2⟩ := foldl_transformStep_service lib now c rs
    ([], { TotalLogs := rs.length, ErrorsByService := [], ErrorsByType := [] }) k
  simp only [transformLogs]
  rw [h1, h2]
  simp [StrIntMap.get, StrIntMap.has]

theorem transformLogs_type (lib : GoLib) (now : String) (rs : List RawLog) (c k : String) :
    (transformLogs lib now rs c).2.ErrorsByType.get k = typeErrorCount lib rs k ∧
    (transformLogs lib now rs c).2.ErrorsByType.has k =
      decide (1 ≤ typeErrorCount lib rs k) := by
  obtain ⟨h1, h2⟩ := foldl_transformStep_type lib now c rs
    ([], { TotalLogs := rs.length, ErrorsByService := [], ErrorsByType := [] }) k
  simp only [transformLogs]
  rw [h1, h2]
  simp [StrIntMap.get, StrIntMap.has]

theorem transformLogs_sums (lib : GoLib) (now : String) (rs : List RawLog) (c : String) :
    (transformLogs lib now rs c).2.ErrorsByService.sumValues = errorCount lib rs ∧
    (transformLogs lib now rs c).2.ErrorsByType.sumValues = errorCount lib rs := by
  obtain ⟨h1, h2⟩ := foldl_transformStep_sums lib now c rs
    ([], { TotalLogs := rs.length, ErrorsByService := [], ErrorsByType := [] })
  simp only [transformLogs]
  rw [h1, h2]
  simp [StrIntMap.sumValues]

theorem StrIntMap.mem_iff (m : StrIntMap) (h : (StrIntMap.keys m).Nodup) (k : String) (v : Int) :
    (k, v) ∈ m ↔ StrIntMap.has m k = true ∧ StrIntMap.get m k = v := by
  induction m with
  | nil => simp [StrIntMap.has]
  | cons p m ih =>
    obtain ⟨a, b⟩ := p
    have h1 : a ∉ StrIntMap.keys m ∧ (StrIntMap.keys m).Nodup := by
      simpa [StrIntMap.keys] using h
    by_cases hak : a = k
    · subst hak
      have h2 : ∀ w, (a, w) ∉ m := by
        intro w hw
        exact h1.1 (List.mem_map.mpr ⟨(a, w), hw, rfl⟩)
      simp [StrIntMap.has, StrIntMap.get, h2, eq_comm]
    · have h' : ¬ k = a := fun e => hak e.symm
      simp [StrIntMap.has, StrIntMap.get, hak, h', ih h1.2]

theorem StrIntMap.perm_of_ext (m m' : StrIntMap) (h : (StrIntMap.keys m).Nodup)
    (h' : (StrIntMap.keys m').Nodup)
    (hext : ∀ k, StrIntMap.has m k = StrIntMap.has m' k ∧ StrIntMap.get m k = StrIntMap.get m' k) :
    List.Perm m m' := by
  rw [List.perm_ext_iff_of_nodup (List.Nodup.of_map _ h) (List.Nodup.of_map _ h')]
  rintro ⟨k, v⟩
  rw [StrIntMap.mem_iff m h, StrIntMap.mem_iff m' h', (hext k).1, (hext k).2]

/-- C11: the aggregate metrics do not depend on the order of the batch: a permutation of the
batch gives the same TotalLogs and, in ErrorsByService and in ErrorsByType, the same keys
with the same counts (the same entries, whatever the order they were first written in). -/
theorem metrics_order_independent (lib : GoLib) (now : String) (rawLogs rawLogs' : List RawLog)
    (requestID : String) (hp : rawLogs.Perm rawLogs') :
    (transformLogs lib now rawLogs requestID).2.TotalLogs =
        (transformLogs lib now rawLogs' requestID).2.TotalLogs ∧
    (∀ k : String,
      (transformLogs lib now rawLogs requestID).2.ErrorsByService.has k =
          (transformLogs lib now rawLogs' requestID).2.ErrorsByService.has k ∧
      (transformLogs lib now rawLogs requestID).2.ErrorsByService.get k =
          (transformLogs lib now rawLogs' requestID).2.ErrorsByService.get k) ∧
    (∀ k : String,
      (transformLogs lib now rawLogs requestID).2.ErrorsByType.has k =
          (transformLogs lib now rawLogs' requestID).2.ErrorsByType.has k ∧
      (transformLogs lib now rawLogs requestID).2.ErrorsByType.get k =
          (transformLogs lib now rawLogs' requestID).2.ErrorsByType.get k) ∧
    List.Perm (transformLogs lib now rawLogs requestID).2.ErrorsByService
      (transformLogs lib now rawLogs' requestID).2.ErrorsByService ∧
    List.Perm (transformLogs lib now rawLogs requestID).2.ErrorsByType
      (transformLogs lib now rawLogs' requestID).2.ErrorsByType := by
  have hS : ∀ k : String,
      (transformLogs lib now rawLogs requestID).2.ErrorsByService.has k =
          (transformLogs lib now rawLogs' requestID).2.ErrorsByService.has k ∧
      (transformLogs lib now rawLogs requestID).2.ErrorsByService.get k =
          (transformLogs lib now rawLogs' requestID).2.ErrorsByService.get k := by
    intro k
    have hs : serviceErrorCount lib rawLogs k = serviceErrorCount lib rawLogs' k :=
      List.Perm.countP_eq _ hp
    rw [(transformLogs_service lib now rawLogs requestID k).1,
      (transformLogs_service lib now rawLogs requestID k).2,
      (transformLogs_service lib now rawLogs' requestID k).1,
      (transformLogs_service lib now rawLogs' requestID k).2, hs]
    exact ⟨rfl, rfl⟩
  have hT : ∀ k : String,
      (transformLogs lib now rawLogs requestID).2.ErrorsByType.has k =
          (transformLogs lib now rawLogs' requestID).2.ErrorsByType.has k ∧
      (transformLogs lib now rawLogs requestID).2.ErrorsByType.get k =
          (transformLogs lib now rawLogs' requestID).2.ErrorsByType.get k := by
    intro k
    have ht : typeErrorCount lib rawLogs k = typeErrorCount lib rawLogs' k :=
      List.Perm.countP_eq _ hp
    rw [(transformLogs_type lib now rawLogs requestID k).1,
      (transformLogs_type lib now rawLogs requestID k).2,
      (transformLogs_type lib now rawLogs' requestID k).1,
      (transformLogs_type lib now rawLogs' requestID k).2, ht]
    exact ⟨rfl, rfl⟩
  have h1 := transformLogs_keys_nodup lib now rawLogs requestID
  have h2 := transformLogs_keys_nodup lib now rawLogs' requestID
  exact ⟨by rw [transformLogs_total, transformLogs_total, hp.length_eq], hS, hT,
    StrIntMap.perm_of_ext _ _ h1.1 h2.1 hS, StrIntMap.perm_of_ext _ _ h1.2 h2.2 hT⟩

/-- Two ERROR records of different services and an INFO record, in two orders. -/
theorem metrics_order_independent_witness :
    List.Perm
      ([{ Level := "error", Message := "a", Service := "svc-a" },
        { Level := "info", Message := "b", Service := "svc-b" },
        { Level := "fatal", Message := "c", Service := "svc-c", ErrorType := "db" }] : List RawLog)
      [{ Level := "fatal", Message := "c", Service := "svc-c", ErrorType := "db" },
       { Level := "info", Message := "b", Service := "svc-b" },
       { Level := "error", Message := "a", Service := "svc-a" }] ∧
    ∀ (lib : GoLib) (now : String),
      (transformLogs lib now
        [{ Level := "error", Message := "a", Service := "svc-a" },
         { Level := "info", Message := "b", Service := "svc-b" },
         { Level := "fatal", Message := "c", Service := "svc-c", ErrorType := "db" }]
        "req-1").2.ErrorsByService.get "svc-c" =
      (transformLogs lib now
        [{ Level := "fatal", Message := "c", Service := "svc-c", ErrorType := "db" },
         { Level := "info", Message := "b", Service := "svc-b" },
         { Level := "error", Message := "a", Service := "svc-a" }]
        "req-1").2.ErrorsByService.get "svc-c" := by
  have hp : List.Perm
      ([{ Level := "error", Message := "a", Service := "svc-a" },
        { Level := "info", Message := "b", Service := "svc-b" },
        { Level := "fatal", Message := "c", Service := "svc-c", ErrorType := "db" }] : List RawLog)
      [{ Level := "fatal", Message := "c", Service := "svc-c", ErrorType := "db" },
       { Level := "info", Message := "b", Service := "svc-b" },
       { Level := "error", Message := "a", Service := "svc-a" }] := by decide
  exact ⟨hp, fun lib now =>
    ((metrics_order_independent lib now _ _ "req-1" hp).2.1 "svc-c").2⟩

/-! ## Decoding and the empty batch -/

/-- C13: parseRawLogs decides in two attempts: a body that decodes as a slice of records
gives exactly that slice, whatever the second attempt would say; otherwise a body that decodes
as one record gives the slice holding that record; otherwise the result is no records and the
error "invalid JSON format", whatever the two decoding errors were. -/
theorem parseRawLogs_two_attempts (json : JSONLib) (body : List UInt8) :
    (∀ rawLogs, json.unmarshalLogs body = .ok rawLogs →
      parseRawLogs json body = (rawLogs, none) ∧
      ∀ json' : JSONLib, json'.unmarshalLogs body = .ok rawLogs →
        parseRawLogs json' body = (rawLogs, none)) ∧
    (∀ e single, json.unmarshalLogs body = .error e → json.unmarshalLog body = .ok single →
      parseRawLogs json body = ([single], none)) ∧
    (∀ e e', json.unmarshalLogs body = .error e → json.unmarshalLog body = .error e' →
      parseRawLogs json body = ([], some "invalid JSON format")) := by
  refine ⟨?_, ?_, ?_⟩
  · intro rawLogs h
    refine ⟨by simp [parseRawLogs, h], ?_⟩
    intro json' h'
    simp [parseRawLogs, h']
  · intro e single h1 h2
    simp [parseRawLogs, h1, h2]
  · intro e e' h1 h2
    simp [parseRawLogs, h1, h2]

/-- The body `not valid json`, which neither attempt decodes, fails with the generic error. -/
theorem parseRawLogs_two_attempts_witness :
    exampleJSON.unmarshalLogs (payload "not valid json") =
      .error "body is not an array of records" ∧
    exampleJSON.unmarshalLog (payload "not valid json") = .error "body is not a record" ∧
    parseRawLogs exampleJSON (payload "not valid json") = ([], some "invalid JSON format") :=
  ⟨rfl, rfl,
    (parseRawLogs_two_attempts exampleJSON (payload "not valid json")).2.2 _ _ rfl rfl⟩

/-- C14: the empty batch is valid end to end: when encoding/json decodes the body `[]` to the
empty slice, parseRawLogs returns the empty sequence without error; validateLogs reports no
violation on it; and transformLogs returns no records and the metrics with TotalLogs 0 and
two maps without keys, for every correlation identifier. -/
theorem empty_batch (json : JSONLib) (h : json.unmarshalLogs (payload "[]") = .ok []) :
    parseRawLogs json (payload "[]") = ([], none) ∧
    validateLogs [] = (-1, none) ∧
    ∀ (lib : GoLib) (now requestID : String),
      transformLogs lib now [] requestID =
        ([], { TotalLogs := 0, ErrorsByService := [], ErrorsByType := [] }) ∧
      ∀ k : String, (transformLogs lib now [] requestID).2.ErrorsByService.has k = false ∧
        (transformLogs lib now [] requestID).2.ErrorsByType.has k = false := by
  refine ⟨by simp [parseRawLogs, h], rfl, ?_⟩
  intro lib now requestID
  exact ⟨rfl, fun k => ⟨rfl, rfl⟩⟩

/-- The example decoder takes the body `[]` to the empty slice. -/
theorem empty_batch_witness :
    exampleJSON.unmarshalLogs (payload "[]") = .ok [] ∧
    parseRawLogs exampleJSON (payload "[]") = ([], none) :=
  ⟨rfl, (empty_batch exampleJSON rfl).1⟩

/-! ## Further invariants of the output -/

/-- C15: every record returned by one call of transformLogs has the same ReceivedAt, the
string now of that call, and the Pipeline tag "fission-log-processor". -/
theorem transformLogs_receivedAt_pipeline (lib : GoLib) (now : String) (rawLogs : List RawLog)
    (requestID : String) :
    (∀ t ∈ (transformLogs lib now rawLogs requestID).1,
      t.ReceivedAt = now ∧ t.Pipeline = "fission-log-processor") ∧
    ∀ t ∈ (transformLogs lib now rawLogs requestID).1,
      ∀ t' ∈ (transformLogs lib now rawLogs requestID).1, t.ReceivedAt = t'.ReceivedAt := by
  have h : ∀ t ∈ (transformLogs lib now rawLogs requestID).1,
      t.ReceivedAt = now ∧ t.Pipeline = "fission-log-processor" := by
    intro t ht
    rw [transformLogs_fst, List.mem_map] at ht
    obtain ⟨raw, -, rfl⟩ := ht
    exact ⟨rfl, rfl⟩
  exact ⟨h, fun t ht t' ht' => (h t ht).1.trans (h t' ht').1.symm⟩

/-- C16: TotalLogs is the number of input records whatever their levels, and the error
counts of ErrorsByService add up to at most TotalLogs. -/
theorem totalLogs_eq_length (lib : GoLib) (now : String) (rawLogs : List RawLog)
    (requestID : String) :
    (transformLogs lib now rawLogs requestID).2.TotalLogs = (rawLogs.length : Int) ∧
    (transformLogs lib now rawLogs requestID).2.ErrorsByService.sumValues ≤
      (transformLogs lib now rawLogs requestID).2.TotalLogs := by
  rw [transformLogs_total, (transformLogs_sums lib now rawLogs requestID).1]
  refine ⟨rfl, ?_⟩
  have h : errorCount lib rawLogs ≤ rawLogs.length := List.countP_le_length _
  exact_mod_cast h

/-- A batch without ERROR records and a batch of ERROR records only. -/
theorem totalLogs_examples (lib : GoLib) (now requestID : String) :
    (transformLogs lib now
      [{ Level := "info", Message := "a", Service := "s" },
       { Level := "debug", Message := "b", Service := "s" }] requestID).2 =
      { TotalLogs := 2, ErrorsByService := [], ErrorsByType := [] } ∧
    (transformLogs lib now
      [{ Level := "error", Message := "a", Service := "s" },
       { Level := "fatal", Message := "b", Service := "s" }] requestID).2 =
      { TotalLogs := 2, ErrorsByService := [("s", 2)], ErrorsByType := [("generic", 2)] } :=
  ⟨rfl, rfl⟩

theorem validated_service_ne_empty (r : RawLog) (h : PassesRules r) : r.Service ≠ "" := by
  intro h0
  apply h.2
  rw [h0]
  decide

/-- C17: in a batch that passes validateLogs no record has an empty service, so the
fallback key is never used: a key of ErrorsByService is always the verbatim service of an
ERROR record of the batch, and the key "unknown" is present only when an ERROR record has
the service "unknown" itself. -/
theorem unknown_fallback_unreachable (lib : GoLib) (now : String) (rawLogs : List RawLog)
    (requestID : String) (hv : validateLogs rawLogs = (-1, none)) :
    (∀ r ∈ rawLogs, r.Service ≠ "") ∧
    (∀ k : String, (transformLogs lib now rawLogs requestID).2.ErrorsByService.has k = true ↔
      ∃ r ∈ rawLogs, normalizeLevel lib r.Level = "ERROR" ∧ r.Service = k) ∧
    ((transformLogs lib now rawLogs requestID).2.ErrorsByService.has "unknown" = true →
      ∃ r ∈ rawLogs, normalizeLevel lib r.Level = "ERROR" ∧ r.Service = "unknown") := by
  have hs : ∀ r ∈ rawLogs, r.Service ≠ "" := by
    intro r hr
    exact validated_service_ne_empty r
      ((validateLog_eq_none r).mp ((validateLogsFrom_none rawLogs 0 (-1) hv).2 r hr))
  have hk : ∀ k : String,
      (transformLogs lib now rawLogs requestID).2.ErrorsByService.has k = true ↔
      ∃ r ∈ rawLogs, normalizeLevel lib r.Level = "ERROR" ∧ r.Service = k := by
    intro k
    rw [(transformLogs_service lib now rawLogs requestID k).2, decide_eq_true_eq,
      serviceErrorCount, Nat.succ_le_iff, List.countP_pos_iff]
    constructor
    · rintro ⟨r, hr, h⟩
      simp only [decide_eq_true_eq] at h
      refine ⟨r, hr, h.1, ?_⟩
      have := h.2
      rwa [if_neg (hs r hr)] at this
    · rintro ⟨r, hr, h1, h2⟩
      refine ⟨r, hr, ?_⟩
      simp only [decide_eq_true_eq]
      exact ⟨h1, by rw [if_neg (hs r hr)]; exact h2⟩
  exact ⟨hs, hk, fun h => (hk "unknown").mp h⟩

/-- A valid batch whose ERROR record has the service svc-b: the only key is svc-b. -/
theorem unknown_fallback_unreachable_witness :
    validateLogs [{ Level := "warning", Message := "a", Service := "svc-a" },
      { Level := "critical", Message := "b", Service := "svc-b" }] = (-1, none) ∧
    ∀ (lib : GoLib) (now : String) (k : String),
      (transformLogs lib now [{ Level := "warning", Message := "a", Service := "svc-a" },
        { Level := "critical", Message := "b", Service := "svc-b" }]
        "req-1").2.ErrorsByService.has k = true ↔
      ∃ r ∈ ([{ Level := "warning", Message := "a", Service := "svc-a" },
        { Level := "critical", Message := "b", Service := "svc-b" }] : List RawLog),
        normalizeLevel lib r.Level = "ERROR" ∧ r.Service = k :=
  ⟨by decide, fun lib now k =>
    (unknown_fallback_unreachable lib now _ "req-1" (by decide)).2.1 k⟩

/-- C18: transformLogs is additive over concatenation: the records of A ++ B are the records
of A followed by the records of B, TotalLogs is the sum of the two TotalLogs, and under every
key the counts of ErrorsByService and of ErrorsByType are the sums of the counts for A and
for B, a key that a map does not hold counting as 0. -/
theorem transformLogs_append (lib : GoLib) (now : String) (a b : List RawLog)
    (requestID : String) :
    (transformLogs lib now (a ++ b) requestID).1 =
        (transformLogs lib now a requestID).1 ++ (transformLogs lib now b requestID).1 ∧
    (transformLogs lib now (a ++ b) requestID).2.TotalLogs =
        (transformLogs lib now a requestID).2.TotalLogs +
          (transformLogs lib now b requestID).2.TotalLogs ∧
    ∀ k : String,
      (transformLogs lib now (a ++ b) requestID).2.ErrorsByService.get k =
          (transformLogs lib now a requestID).2.ErrorsByService.get k +
            (transformLogs lib now b requestID).2.ErrorsByService.get k ∧
      (transformLogs lib now (a ++ b) requestID).2.ErrorsByType.get k =
          (transformLogs lib now a requestID).2.ErrorsByType.get k +
            (transformLogs lib now b requestID).2.ErrorsByType.get k ∧
      ((transformLogs lib now a requestID).2.ErrorsByService.has k = false →
        (transformLogs lib now a requestID).2.ErrorsByService.get k = 0) ∧
      ((transformLogs lib now a requestID).2.ErrorsByType.has k = false →
        (transformLogs lib now a requestID).2.ErrorsByType.get k = 0) := by
  refine ⟨by simp [transformLogs_fst], ?_, fun k => ⟨?_, ?_, ?_, ?_⟩⟩
  · rw [transformLogs_total, transformLogs_total, transformLogs_total]
    simp
  · rw [(transformLogs_service lib now (a ++ b) requestID k).1,
      (transformLogs_service lib now a requestID k).1,
      (transformLogs_service lib now b requestID k).1]
    simp [serviceErrorCount, List.countP_append]
  · rw [(transformLogs_type lib now (a ++ b) requestID k).1,
      (transformLogs_type lib now a requestID k).1,
      (transformLogs_type lib now b requestID k).1]
    simp [typeErrorCount, List.countP_append]
  · rw [(transformLogs_service lib now a requestID k).1,
      (transformLogs_service lib now a requestID k).2]
    intro h
    simp only [decide_eq_false_iff_not] at h
    have : serviceErrorCount lib a k = 0 := by omega
    simp [this]
  · rw [(transformLogs_type lib now a requestID k).1,
      (transformLogs_type lib now a requestID k).2]
    intro h
    simp only [decide_eq_false_iff_not] at h
    have : typeErrorCount lib a k = 0 := by omega
    simp [this]

theorem normalizeLevel_mem (lib : GoLib) (s : String) :
    normalizeLevel lib s ∈ canonicalLevels := by
  unfold normalizeLevel
  simp only [canonicalLevels]
  split_ifs <;> simp

theorem normalizeLevel_fixed (lib : GoLib) (v : String) (h : v ∈ canonicalLevels) :
    normalizeLevel lib v = v := by
  unfold canonicalLevels at h
  fin_cases h <;> rfl

/-- C19: normalizeLevel is idempotent: each of the four canonical levels is a fixed point,
so normalising a normalised level gives the same level, and the level is ERROR after the
second pass exactly when it was after the first. -/
theorem normalizeLevel_idempotent (lib : GoLib) (s : String) :
    normalizeLevel lib (normalizeLevel lib s) = normalizeLevel lib s ∧
    normalizeLevel lib "ERROR" = "ERROR" ∧ normalizeLevel lib "WARN" = "WARN" ∧
    normalizeLevel lib "INFO" = "INFO" ∧ normalizeLevel lib "DEBUG" = "DEBUG" ∧
    (normalizeLevel lib (normalizeLevel lib s) = "ERROR" ↔ normalizeLevel lib s = "ERROR") := by
  have h := normalizeLevel_fixed lib (normalizeLevel lib s) (normalizeLevel_mem lib s)
  exact ⟨h, rfl, rfl, rfl, rfl, by rw [h]⟩

end LogTransformer
